import Mathlib

/-!
Verification of the stdio session manager in src-tauri/src/mcp.rs.

The Rust module manages external worker processes: start_mcp_server spawns a
shell command with piped stdio, wires a reader thread per output stream, and
registers the session in a shared lock-guarded map; send_command parses an
outbound JSON-RPC message, writes it to the child stdin, and either returns
immediately (notification) or blocks on the stdout hand-off channel with a
5-second timeout (request).

The embedding below models:
- serde_json values as the inductive Json, and the derived deserializer of the
  JsonRpcMessage struct as decodeJsonRpcMessage (field-by-field, duplicate
  fields rejected, unknown fields ignored, missing required fields rejected);
- the McpServer session state as the list of lines written to the child stdin
  plus the queue of stdout lines currently available on the hand-off channel;
- fallible I/O (write, flush, spawn) via explicit environment records that
  say which operation fails with which error text;
- each command as a state transformer that additionally records the trace of
  primitive actions it performs (lock acquire/release, map access, process
  spawn, stdin write/flush, timed channel receive), so lock-granularity and
  frame claims become statements about the trace;
- the stdout/stderr reader threads as pure functions from the list of read
  results delivered by the underlying stream to the list of sink events;
- the duplicate-start race as a two-thread interleaving automaton whose steps
  mirror the critical section of start_mcp_server.
-/

namespace Agentia

/-- serde_json::Value. Numbers are modelled as integers; no claim inspects
numeric contents. -/
inductive Json where
  | null
  | bool (b : Bool)
  | num (n : Int)
  | str (s : String)
  | arr (elems : List Json)
  | obj (fields : List (String × Json))
deriving Repr

/-- The JsonRpcMessage struct of mcp.rs: optional id, required jsonrpc and
method strings, optional params. -/
structure JsonRpcMessage where
  id : Option Json
  jsonrpc : String
  method : String
  params : Option Json
deriving Repr

/-- Deserializing a JSON value into Option of Value: JSON null becomes None,
anything else Some. This is how serde treats the id and params fields. -/
def decodeOptValue : Json → Option Json
  | .null => none
  | v => some v

/-- The serde-derived field loop for JsonRpcMessage: walk the object entries
in order, filling one slot per known field, rejecting a duplicate known field,
ignoring unknown fields; at the end the required fields jsonrpc and method
must be filled (checked in declaration order). -/
def decodeFields :
    List (String × Json) → Option (Option Json) → Option String → Option String →
    Option (Option Json) → Except String JsonRpcMessage
  | [], _, none, _, _ => .error "missing field jsonrpc"
  | [], _, some _, none, _ => .error "missing field method"
  | [], idF, some jr, some m, pF => .ok ⟨idF.getD none, jr, m, pF.getD none⟩
  | (k, v) :: rest, idF, jrF, mF, pF =>
    if k = "id" then
      match idF with
      | some _ => .error "duplicate field id"
      | none => decodeFields rest (some (decodeOptValue v)) jrF mF pF
    else if k = "jsonrpc" then
      match jrF with
      | some _ => .error "duplicate field jsonrpc"
      | none =>
        match v with
        | .str s => decodeFields rest idF (some s) mF pF
        | _ => .error "invalid type for field jsonrpc"
    else if k = "method" then
      match mF with
      | some _ => .error "duplicate field method"
      | none =>
        match v with
        | .str s => decodeFields rest idF jrF (some s) pF
        | _ => .error "invalid type for field method"
    else if k = "params" then
      match pF with
      | some _ => .error "duplicate field params"
      | none => decodeFields rest idF jrF mF (some (decodeOptValue v))
    else
      decodeFields rest idF jrF mF pF

/-- serde_json::from_str::[JsonRpcMessage] applied to a syntactically valid
JSON value: non-objects are type errors, objects go through the field loop. -/
def decodeJsonRpcMessage : Json → Except String JsonRpcMessage
  | .obj fields => decodeFields fields none none none none
  | _ => .error "invalid type: expected struct JsonRpcMessage"

/-- An outbound command text: the exact raw text (what send_command writes to
the child stdin) together with the result of JSON syntax parsing of that text
(none when the text is not valid JSON). The syntactic tokenizer of serde_json
is abstracted into the parsed field; the struct-level decoding, which decides
acceptance of syntactically valid JSON, is modelled in full. -/
structure Command where
  raw : String
  parsed : Option Json

/-- serde_json::from_str::[JsonRpcMessage] on the raw command text. -/
def fromStr (c : Command) : Except String JsonRpcMessage :=
  match c.parsed with
  | none => .error "expected value at line 1 column 1"
  | some j => decodeJsonRpcMessage j

/-- Primitive effects performed by the tauri commands, in program order.
lockAcquire/lockRelease delimit the critical section of the registry mutex;
recvTimeout is the blocking wait on the stdout hand-off channel with its
timeout in seconds. -/
inductive Action where
  | lockAcquire
  | lockRelease
  | mapContains (k : String)
  | mapLookup (k : String)
  | mapInsert (k : String)
  | spawn (cmd : String) (envPairs : List (String × String))
  | spawnReader (stream : String)
  | writeStdin (s : String)
  | flushStdin
  | recvTimeout (secs : Nat)
deriving DecidableEq, Repr

/-- Session state of one McpServer: the lines successfully written to the
child process stdin, and the stdout lines currently queued on the hand-off
channel (the lines a recv within the timeout window would obtain, in order).
The process handle itself carries no state the claims observe. -/
structure McpServer where
  stdinWritten : List String
  stdoutQueue : List String
deriving DecidableEq, Repr

/-- Outcome environment for the two fallible stdin operations of one
send_command call: none means the operation succeeds, some e means it fails
with I/O error text e. -/
structure WriteEnv where
  writeErr : Option String
  flushErr : Option String

/-- McpServer::send_command of mcp.rs lines 39-69: parse the command (error
out before any write on failure), write the command plus a newline to the
child stdin, flush, return Ok "" at once for a notification (absent or null
id), otherwise block on the hand-off channel with a 5 second timeout and
return the next available line verbatim, or the timeout error. Returns the
result, the updated session state, and the trace of actions performed. -/
def send_command (env : WriteEnv) (srv : McpServer) (c : Command) :
    Except String String × McpServer × List Action :=
  match fromStr c with
  | .error e => (.error ("Failed to parse JSON-RPC message: " ++ e), srv, [])
  | .ok message =>
    match env.writeErr with
    | some e => (.error ("Failed to send command: " ++ e), srv,
        [.writeStdin (c.raw ++ "\n")])
    | none =>
      let srv1 : McpServer :=
        { srv with stdinWritten := srv.stdinWritten ++ [c.raw ++ "\n"] }
      match env.flushErr with
      | some e => (.error ("Failed to flush stdin: " ++ e), srv1,
          [.writeStdin (c.raw ++ "\n"), .flushStdin])
      | none =>
        match message.id with
        | none => (.ok "", srv1, [.writeStdin (c.raw ++ "\n"), .flushStdin])
        | some _ =>
          match srv1.stdoutQueue with
          | [] => (.error "Timeout waiting for command output", srv1,
              [.writeStdin (c.raw ++ "\n"), .flushStdin, .recvTimeout 5])
          | line :: rest => (.ok line, { srv1 with stdoutQueue := rest },
              [.writeStdin (c.raw ++ "\n"), .flushStdin, .recvTimeout 5])

/-- The registry map of McpState: session identifier to session, modelled as
an association list with HashMap semantics (at most one entry per key). -/
abbrev Registry : Type := List (String × McpServer)

/-- HashMap::contains_key. -/
def containsKey (r : Registry) (k : String) : Bool :=
  r.any (fun kv => kv.1 == k)

/-- HashMap::get_mut viewed as a read: the value stored at k, if any. -/
def lookupEntry (r : Registry) (k : String) : Option McpServer :=
  (r.find? (fun kv => kv.1 == k)).map (fun kv => kv.2)

/-- HashMap::insert of a key known to be absent. -/
def insertEntry (r : Registry) (k : String) (v : McpServer) : Registry :=
  r ++ [(k, v)]

/-- The write-back of an in-place mutation through HashMap::get_mut. -/
def updateEntry (r : Registry) (k : String) (v : McpServer) : Registry :=
  r.map (fun kv => if kv.1 == k then (k, v) else kv)

/-- An environment variable pair passed to start_mcp_server. -/
structure EnvVar where
  key : String
  value : String

/-- Which of the three piped standard streams of the spawned child are
available to take(); after a successful spawn with Stdio::piped requested for
all three, the Rust standard library guarantees all three are available, but
the code tests each Option and the model keeps the tests. -/
structure ChildStreams where
  stdinAvail : Bool
  stdoutAvail : Bool
  stderrAvail : Bool

/-- Outcome environment of the Command::spawn call of one start attempt. -/
structure SpawnEnv where
  result : Except String ChildStreams

/-- start_mcp_server of mcp.rs lines 80-159: under the registry lock (held
from entry to return), reject a duplicate identifier, spawn the shell command
with piped stdio, take the child stdin (error if unavailable), start a reader
thread for stdout and for stderr when available, insert the fresh session and
return the confirmation string. Returns result, updated registry, trace. -/
def start_mcp_server (env : SpawnEnv) (servers : Registry) (server_id : String)
    (command : String) (env_vars : List EnvVar) :
    Except String String × Registry × List Action :=
  if containsKey servers server_id then
    (.error "Server with this ID already exists", servers,
     [.lockAcquire, .mapContains server_id, .lockRelease])
  else
    match env.result with
    | .error e =>
        (.error ("Failed to start process: " ++ e), servers,
         [.lockAcquire, .mapContains server_id,
          .spawn command (env_vars.map (fun v => (v.key, v.value))), .lockRelease])
    | .ok streams =>
        if streams.stdinAvail then
          (.ok ("Process " ++ server_id ++ " started successfully"),
           insertEntry servers server_id ⟨[], []⟩,
           [.lockAcquire, .mapContains server_id,
            .spawn command (env_vars.map (fun v => (v.key, v.value)))] ++
           (if streams.stdoutAvail then [Action.spawnReader "stdout"] else []) ++
           (if streams.stderrAvail then [Action.spawnReader "stderr"] else []) ++
           [.mapInsert server_id, .lockRelease])
        else
          (.error "Failed to capture stdin", servers,
           [.lockAcquire, .mapContains server_id,
            .spawn command (env_vars.map (fun v => (v.key, v.value))), .lockRelease])

/-- send_mcp_command of mcp.rs lines 161-176: under the registry lock (held
from entry to return, including across the inner send_command), look up the
session and delegate to McpServer::send_command. -/
def send_mcp_command (env : WriteEnv) (servers : Registry) (server_id : String)
    (c : Command) : Except String String × Registry × List Action :=
  match lookupEntry servers server_id with
  | none => (.error "Server not found", servers,
      [.lockAcquire, .mapLookup server_id, .lockRelease])
  | some srv =>
      let r := send_command env srv c
      (r.1, updateEntry servers server_id r.2.1,
       [.lockAcquire, .mapLookup server_id] ++ r.2.2 ++ [.lockRelease])

/-- One item produced by BufReader::lines on the wrapped stream: a
successfully read line, or a read error (e.g. invalid UTF-8 or an I/O
failure) for that iteration. -/
inductive ReadItem where
  | line (s : String)
  | readErr (e : String)
deriving DecidableEq, Repr

/-- A sink event of a reader thread: a successful send on the session's
hand-off channel, or a publication on a broadcast/event-stream sink tagged
with a session identifier and stream kind. The stdout reader of mcp.rs only
ever performs chanSend; the broadcast constructor exists so that the spec's
two-sink claim is expressible over the same event type. -/
inductive ReaderEvent where
  | chanSend (s : String)
  | broadcast (serverId : String) (streamKind : String) (line : String)
deriving DecidableEq, Repr

/-- The stdout reader thread of mcp.rs lines 132-140: for each item produced
by the stream, skip read errors, send each successfully read line on the
hand-off channel, and stop when a send fails because the receiver was
dropped. The first argument is the number of sends the receiver will still
accept (none: the receiver stays alive). Returns the events performed. -/
def stdout_reader_loop : Option Nat → List ReadItem → List ReaderEvent
  | _, [] => []
  | budget, ReadItem.readErr _ :: rest => stdout_reader_loop budget rest
  | none, ReadItem.line s :: rest =>
      ReaderEvent.chanSend s :: stdout_reader_loop none rest
  | some 0, ReadItem.line _ :: _ => []
  | some (n + 1), ReadItem.line s :: rest =>
      ReaderEvent.chanSend s :: stdout_reader_loop (some n) rest

/-- The stderr reader thread of mcp.rs lines 146-152: skip read errors and
log each successfully read line (eprintln); returns the logged lines. -/
def stderr_reader_loop : List ReadItem → List String
  | [] => []
  | ReadItem.line s :: rest => s :: stderr_reader_loop rest
  | ReadItem.readErr _ :: rest => stderr_reader_loop rest

/-- The lines a reader obtains successfully from its stream, in order. -/
def okLines : List ReadItem → List String
  | [] => []
  | ReadItem.line s :: rest => s :: okLines rest
  | ReadItem.readErr _ :: rest => okLines rest

/-- The lines delivered to the hand-off channel among a list of events. -/
def chanDeliveries : List ReaderEvent → List String
  | [] => []
  | ReaderEvent.chanSend s :: rest => s :: chanDeliveries rest
  | ReaderEvent.broadcast _ _ _ :: rest => chanDeliveries rest

/-- How many events publish the given line on a broadcast sink with the given
stream kind. -/
def broadcastCount : List ReaderEvent → String → String → Nat
  | [], _, _ => 0
  | ReaderEvent.broadcast _ k l :: rest, kind, line =>
      (if k = kind ∧ l = line then 1 else 0) + broadcastCount rest kind line
  | ReaderEvent.chanSend _ :: rest, kind, line => broadcastCount rest kind line

/-- Lock acquire/release actions. -/
def isLockAct : Action → Bool
  | .lockAcquire => true
  | .lockRelease => true
  | _ => false

/-- Blocking timed receives on the hand-off channel. -/
def isRecvAct : Action → Bool
  | .recvTimeout _ => true
  | _ => false

/-- Process spawns. -/
def isSpawnAct : Action → Bool
  | .spawn _ _ => true
  | _ => false

/-- Scan a trace with a running lock depth; true when some timed receive is
executed while the registry lock is held. -/
def heldAcrossWaitAux : Nat → List Action → Bool
  | _, [] => false
  | d, Action.lockAcquire :: rest => heldAcrossWaitAux (d + 1) rest
  | d, Action.lockRelease :: rest => heldAcrossWaitAux (d - 1) rest
  | d, Action.recvTimeout _ :: rest => decide (0 < d) || heldAcrossWaitAux d rest
  | d, _ :: rest => heldAcrossWaitAux d rest

/-- A trace performs a blocking channel wait while holding the registry
lock. -/
def heldAcrossWait (tr : List Action) : Bool :=
  heldAcrossWaitAux 0 tr

/-- The tail of a single critical section: nonempty, ends in exactly one
lockRelease, and contains no other lock action. -/
def csTail (l : List Action) : Bool :=
  !l.isEmpty && decide (l.getLast? = some Action.lockRelease) &&
    l.dropLast.all (fun a => !isLockAct a)

/-- The whole trace is one critical section of the registry lock: it starts
by acquiring the lock, ends by releasing it, and touches the lock nowhere in
between. -/
def singleCS : List Action → Bool
  | Action.lockAcquire :: rest => csTail rest
  | _ => false

/-! ## Two concurrent start_mcp_server calls with one identifier

The lock is explicit shared state; each thread executes the body of
start_mcp_server step by step, each step atomic, mirroring the source:
acquire the lock, evaluate contains_key, return the duplicate error (dropping
the lock) or spawn, then insert and return (dropping the lock). A scheduler
is an arbitrary list of thread choices; a chosen thread that is blocked on
the lock, or finished, leaves the state unchanged. -/

/-- Program counter of one thread running start_mcp_server for a fixed
identifier. checked carries the value contains_key returned; spawned carries
whether the spawn succeeded; done carries whether the call returned Ok. -/
inductive TPhase where
  | ready
  | locked
  | checked (dup : Bool)
  | spawned (ok : Bool)
  | done (success : Bool)
deriving DecidableEq, Repr

/-- Shared state of the two-thread execution: the registry lock (holder
thread, if held), the registry map, and each thread's phase. Threads are
named by Bool. -/
structure Global where
  lock : Option Bool
  reg : Registry
  phase : Bool → TPhase

/-- Update one thread's phase. -/
def updPhase (f : Bool → TPhase) (t : Bool) (p : TPhase) : Bool → TPhase :=
  fun u => if u = t then p else f u

/-- One atomic step of thread t running start_mcp_server sid; spawnOk gives
each thread's spawn outcome. A blocked or finished thread does not move. -/
def tstep (sid : String) (spawnOk : Bool → Bool) (g : Global) (t : Bool) : Global :=
  match g.phase t with
  | .ready =>
    match g.lock with
    | none => { g with lock := some t, phase := updPhase g.phase t .locked }
    | some _ => g
  | .locked => { g with phase := updPhase g.phase t (.checked (containsKey g.reg sid)) }
  | .checked true => { g with lock := none, phase := updPhase g.phase t (.done false) }
  | .checked false => { g with phase := updPhase g.phase t (.spawned (spawnOk t)) }
  | .spawned false => { g with lock := none, phase := updPhase g.phase t (.done false) }
  | .spawned true =>
      { lock := none, reg := insertEntry g.reg sid ⟨[], []⟩,
        phase := updPhase g.phase t (.done true) }
  | .done _ => g

/-- Run a schedule (list of thread choices) from a state. -/
def runSched (sid : String) (spawnOk : Bool → Bool) : List Bool → Global → Global
  | [], g => g
  | t :: rest, g => runSched sid spawnOk rest (tstep sid spawnOk g t)

/-- Initial state: lock free, both threads about to call start_mcp_server. -/
def initGlobal (reg0 : Registry) : Global :=
  { lock := none, reg := reg0, phase := fun _ => .ready }

/-- How many of the two start calls returned Ok. -/
def winners (g : Global) : Nat :=
  (if g.phase false = TPhase.done true then 1 else 0) +
  (if g.phase true = TPhase.done true then 1 else 0)

/-- A thread is inside the critical section. -/
def inCS : TPhase → Bool
  | .locked => true
  | .checked _ => true
  | .spawned _ => true
  | _ => false

/-- Whether a decode attempt succeeded. -/
def decodeOk (r : Except String JsonRpcMessage) : Bool :=
  match r with
  | .ok _ => true
  | .error _ => false

/-- JSON string values. -/
def isStrJson : Json → Bool
  | .str _ => true
  | _ => false

/-- How many entries of the object carry the given key. -/
def fieldCount : List (String × Json) → String → Nat
  | [], _ => 0
  | kv :: rest, k => (if kv.1 = k then 1 else 0) + fieldCount rest k

/-- The object has an entry with the given key whose value is a string. -/
def hasStrField : List (String × Json) → String → Bool
  | [], _ => false
  | kv :: rest, k => (decide (kv.1 = k) && isStrJson kv.2) || hasStrField rest k

/-- Spec-side characterization of which syntactically valid JSON objects the
parse step accepts: each protocol field key at most once, and jsonrpc and
method present with string values; nothing else about the contents of any
field (in particular of id and params) matters. -/
def acceptsPerSpec (fields : List (String × Json)) : Bool :=
  decide (fieldCount fields "id" ≤ 1) && decide (fieldCount fields "jsonrpc" ≤ 1) &&
  decide (fieldCount fields "method" ≤ 1) && decide (fieldCount fields "params" ≤ 1) &&
  hasStrField fields "jsonrpc" && hasStrField fields "method"

/-- How many further occurrences of a field the decoder tolerates given the
state of its slot. -/
def capF {α : Type} : Option α → Nat
  | some _ => 0
  | none => 1

/-- Whether a decoder slot is already filled. -/
def filledF {α : Type} : Option α → Bool
  | some _ => true
  | none => false

/-- Items that are successfully read lines. -/
def isLineItem : ReadItem → Bool
  | .line _ => true
  | .readErr _ => false

/-- Spec-side reading of the Line Reader contract: deliver each line until
the stream ends or a read error occurs, and terminate at that point, so
nothing after the first read error is delivered. -/
def readerStopsAtError (items : List ReadItem) : List String :=
  okLines (items.takeWhile isLineItem)

/-- Sample request: a JSON object with jsonrpc, method and id. -/
def reqJson : Json :=
  Json.obj [("jsonrpc", Json.str "2.0"), ("method", Json.str "ping"), ("id", Json.num 1)]

/-- The request as raw text plus its parse. -/
def reqCommand : Command :=
  { raw := "\x7b\x22jsonrpc\x22:\x222.0\x22,\x22method\x22:\x22ping\x22,\x22id\x22:1\x7d",
    parsed := some reqJson }

/-- Sample notification: no id field. -/
def notifJson : Json :=
  Json.obj [("jsonrpc", Json.str "2.0"), ("method", Json.str "initialized")]

/-- The notification as raw text plus its parse. -/
def notifCommand : Command :=
  { raw := "\x7b\x22jsonrpc\x22:\x222.0\x22,\x22method\x22:\x22initialized\x22\x7d",
    parsed := some notifJson }

/-- Text that is not valid JSON at all. -/
def badCommand : Command :=
  { raw := "not json", parsed := none }

/-- A syntactically valid JSON object carrying a version tag and an id but no
method field. -/
def noMethodJson : Json :=
  Json.obj [("jsonrpc", Json.str "2.0"), ("id", Json.num 1)]

/-- That object as an outbound command. -/
def noMethodCommand : Command :=
  { raw := "\x7b\x22jsonrpc\x22:\x222.0\x22,\x22id\x22:1\x7d",
    parsed := some noMethodJson }

/-- A fresh session with nothing queued. -/
def emptyServer : McpServer :=
  { stdinWritten := [], stdoutQueue := [] }

/-- A session whose child has already written one stdout line. -/
def replyServer : McpServer :=
  { stdinWritten := [], stdoutQueue := ["pong"] }

/-- Both stdin operations succeed. -/
def okWrites : WriteEnv :=
  { writeErr := none, flushErr := none }

/-- The stdin write fails. -/
def failWrite : WriteEnv :=
  { writeErr := some "Broken pipe (os error 32)", flushErr := none }

/-- The stdin write succeeds but the flush fails. -/
def failFlush : WriteEnv :=
  { writeErr := none, flushErr := some "Broken pipe (os error 32)" }

/-- A registry holding one idle session under identifier s1. -/
def sampleRegistry : Registry := [("s1", emptyServer)]

/-- A registry holding one session with a queued stdout line. -/
def replyRegistry : Registry := [("s1", replyServer)]

/-- Spawn fails outright. -/
def spawnFailEnv : SpawnEnv :=
  { result := .error "No such file or directory (os error 2)" }

/-- Spawn succeeds with all three piped streams available. -/
def spawnOkEnv : SpawnEnv :=
  { result := .ok { stdinAvail := true, stdoutAvail := true, stderrAvail := true } }

/-- Spawn succeeds but the child stdin cannot be taken. -/
def noStdinEnv : SpawnEnv :=
  { result := .ok { stdinAvail := false, stdoutAvail := true, stderrAvail := true } }

/-- Inductive invariant of the two-thread execution: the lock is owned by any
thread inside the critical section; a thread that has passed the duplicate
check (and not yet inserted) certifies the identifier is absent; a thread
that returned Ok certifies the identifier is present; at most one thread has
returned Ok. -/
structure Inv (sid : String) (g : Global) : Prop where
  lockOwner : ∀ t, inCS (g.phase t) = true → g.lock = some t
  noEntry : ∀ t, (g.phase t = TPhase.checked false ∨ g.phase t = TPhase.spawned true ∨
      g.phase t = TPhase.spawned false) → containsKey g.reg sid = false
  doneEntry : ∀ t, g.phase t = TPhase.done true → containsKey g.reg sid = true
  oneWinner : ¬ (g.phase false = TPhase.done true ∧ g.phase true = TPhase.done true)

theorem updPhase_same (f : Bool → TPhase) (t : Bool) (p : TPhase) :
    updPhase f t p t = p := by
  simp [updPhase]

theorem updPhase_ne (f : Bool → TPhase) (t u : Bool) (p : TPhase) (h : u ≠ t) :
    updPhase f t p u = f u := by
  simp [updPhase, h]

theorem containsKey_insert (r : Registry) (k : String) (v : McpServer) :
    containsKey (insertEntry r k v) k = true := by
  unfold containsKey insertEntry
  rw [List.any_append]
  simp

theorem containsKey_insert_mono (r : Registry) (k1 k : String) (v : McpServer)
    (h : containsKey r k = true) : containsKey (insertEntry r k1 v) k = true := by
  unfold containsKey insertEntry
  unfold containsKey at h
  rw [List.any_append, h]
  rfl

theorem inv_release_fail (sid : String) (g : Global) (t : Bool) (h : Inv sid g)
    (hcs : inCS (g.phase t) = true) :
    Inv sid { g with lock := none, phase := updPhase g.phase t (TPhase.done false) } := by
  obtain ⟨hLock, hNo, hDone, hOne⟩ := h
  refine ⟨?_, ?_, ?_, ?_⟩
  · intro u hu
    dsimp only at hu ⊢
    by_cases hut : u = t
    · subst hut
      rw [updPhase_same] at hu
      simp [inCS] at hu
    · rw [updPhase_ne _ _ _ _ hut] at hu
      have h1 := hLock u hu
      have h2 := hLock t hcs
      rw [h1] at h2
      injection h2 with h2
      exact absurd h2 hut
  · intro u hu
    dsimp only at hu ⊢
    by_cases hut : u = t
    · subst hut
      rw [updPhase_same] at hu
      rcases hu with h1 | h1 | h1 <;> cases h1
    · rw [updPhase_ne _ _ _ _ hut] at hu
      exact hNo u hu
  · intro u hu
    dsimp only at hu ⊢
    by_cases hut : u = t
    · subst hut
      rw [updPhase_same] at hu
      injection hu with hu
      cases hu
    · rw [updPhase_ne _ _ _ _ hut] at hu
      exact hDone u hu
  · intro hc
    dsimp only at hc
    cases t with
    | false =>
      have h1 := hc.1
      rw [updPhase_same] at h1
      injection h1 with h1
      cases h1
    | true =>
      have h1 := hc.2
      rw [updPhase_same] at h1
      injection h1 with h1
      cases h1

theorem tstep_inv (sid : String) (spawnOk : Bool → Bool) (g : Global) (t : Bool)
    (h : Inv sid g) : Inv sid (tstep sid spawnOk g t) := by
  obtain ⟨hLock, hNo, hDone, hOne⟩ := h
  cases hp : g.phase t with
  | ready =>
    cases hl : g.lock with
    | some w =>
      simp only [tstep, hp, hl]
      exact ⟨hLock, hNo, hDone, hOne⟩
    | none =>
      simp only [tstep, hp, hl]
      refine ⟨?_, ?_, ?_, ?_⟩
      · intro u hu
        dsimp only at hu ⊢
        by_cases hut : u = t
        · subst hut
          rfl
        · rw [updPhase_ne _ _ _ _ hut] at hu
          have h1 := hLock u hu
          rw [hl] at h1
          cases h1
      · intro u hu
        dsimp only at hu ⊢
        by_cases hut : u = t
        · subst hut
          rw [updPhase_same] at hu
          rcases hu with h1 | h1 | h1 <;> cases h1
        · rw [updPhase_ne _ _ _ _ hut] at hu
          exact hNo u hu
      · intro u hu
        dsimp only at hu ⊢
        by_cases hut : u = t
        · subst hut
          rw [updPhase_same] at hu
          cases hu
        · rw [updPhase_ne _ _ _ _ hut] at hu
          exact hDone u hu
      · intro hc
        dsimp only at hc
        cases t with
        | false =>
          have h1 := hc.1
          rw [updPhase_same] at h1
          cases h1
        | true =>
          have h1 := hc.2
          rw [updPhase_same] at h1
          cases h1
  | locked =>
    simp only [tstep, hp]
    refine ⟨?_, ?_, ?_, ?_⟩
    · intro u hu
      dsimp only at hu ⊢
      by_cases hut : u = t
      · subst hut
        exact hLock u (by rw [hp]; rfl)
      · rw [updPhase_ne _ _ _ _ hut] at hu
        exact hLock u hu
    · intro u hu
      dsimp only at hu ⊢
      by_cases hut : u = t
      · subst hut
        rw [updPhase_same] at hu
        rcases hu with h1 | h1 | h1
        · injection h1
        · cases h1
        · cases h1
      · rw [updPhase_ne _ _ _ _ hut] at hu
        exact hNo u hu
    · intro u hu
      dsimp only at hu ⊢
      by_cases hut : u = t
      · subst hut
        rw [updPhase_same] at hu
        cases hu
      · rw [updPhase_ne _ _ _ _ hut] at hu
        exact hDone u hu
    · intro hc
      dsimp only at hc
      cases t with
      | false =>
        have h1 := hc.1
        rw [updPhase_same] at h1
        cases h1
      | true =>
        have h1 := hc.2
        rw [updPhase_same] at h1
        cases h1
  | checked dup =>
    cases dup with
    | true =>
      simp only [tstep, hp]
      exact inv_release_fail sid g t ⟨hLock, hNo, hDone, hOne⟩ (by rw [hp]; rfl)
    | false =>
      simp only [tstep, hp]
      refine ⟨?_, ?_, ?_, ?_⟩
      · intro u hu
        dsimp only at hu ⊢
        by_cases hut : u = t
        · subst hut
          exact hLock u (by rw [hp]; rfl)
        · rw [updPhase_ne _ _ _ _ hut] at hu
          exact hLock u hu
      · intro u hu
        dsimp only at hu ⊢
        by_cases hut : u = t
        · subst hut
          exact hNo u (Or.inl hp)
        · rw [updPhase_ne _ _ _ _ hut] at hu
          exact hNo u hu
      · intro u hu
        dsimp only at hu ⊢
        by_cases hut : u = t
        · subst hut
          rw [updPhase_same] at hu
          cases hu
        · rw [updPhase_ne _ _ _ _ hut] at hu
          exact hDone u hu
      · intro hc
        dsimp only at hc
        cases t with
        | false =>
          have h1 := hc.1
          rw [updPhase_same] at h1
          cases h1
        | true =>
          have h1 := hc.2
          rw [updPhase_same] at h1
          cases h1
  | spawned ok =>
    cases ok with
    | false =>
      simp only [tstep, hp]
      exact inv_release_fail sid g t ⟨hLock, hNo, hDone, hOne⟩ (by rw [hp]; rfl)
    | true =>
      simp only [tstep, hp]
      refine ⟨?_, ?_, ?_, ?_⟩
      · intro u hu
        dsimp only at hu ⊢
        by_cases hut : u = t
        · subst hut
          rw [updPhase_same] at hu
          simp [inCS] at hu
        · rw [updPhase_ne _ _ _ _ hut] at hu
          have h1 := hLock u hu
          have h2 := hLock t (by rw [hp]; rfl)
          rw [h1] at h2
          injection h2 with h2
          exact absurd h2 hut
      · intro u hu
        dsimp only at hu ⊢
        by_cases hut : u = t
        · subst hut
          rw [updPhase_same] at hu
          rcases hu with h1 | h1 | h1 <;> cases h1
        · rw [updPhase_ne _ _ _ _ hut] at hu
          have hcs : inCS (g.phase u) = true := by
            rcases hu with h1 | h1 | h1 <;> rw [h1] <;> rfl
          have h1 := hLock u hcs
          have h2 := hLock t (by rw [hp]; rfl)
          rw [h1] at h2
          injection h2 with h2
          exact absurd h2 hut
      · intro u hu
        dsimp only at hu ⊢
        by_cases hut : u = t
        · subst hut
          exact containsKey_insert g.reg sid ⟨[], []⟩
        · rw [updPhase_ne _ _ _ _ hut] at hu
          exact containsKey_insert_mono g.reg sid sid ⟨[], []⟩ (hDone u hu)
      · intro hc
        dsimp only at hc
        cases t with
        | false =>
          have h2 := hc.2
          rw [updPhase_ne _ _ _ _ (by simp)] at h2
          have h3 := hDone true h2
          have h4 := hNo false (Or.inr (Or.inl hp))
          rw [h3] at h4
          cases h4
        | true =>
          have h2 := hc.1
          rw [updPhase_ne _ _ _ _ (by simp)] at h2
          have h3 := hDone false h2
          have h4 := hNo true (Or.inr (Or.inl hp))
          rw [h3] at h4
          cases h4
  | done s =>
    simp only [tstep, hp]
    exact ⟨hLock, hNo, hDone, hOne⟩

theorem runSched_inv (sid : String) (spawnOk : Bool → Bool) (sched : List Bool)
    (g : Global) (h : Inv sid g) : Inv sid (runSched sid spawnOk sched g) := by
  induction sched generalizing g with
  | nil => exact h
  | cons t rest ih =>
    exact ih (tstep sid spawnOk g t) (tstep_inv sid spawnOk g t h)

theorem inv_init (sid : String) (reg0 : Registry) : Inv sid (initGlobal reg0) := by
  refine ⟨?_, ?_, ?_, ?_⟩
  · intro u hu
    cases hu
  · intro u hu
    rcases hu with h1 | h1 | h1 <;> cases h1
  · intro u hu
    cases hu
  · intro hc
    cases hc.1

theorem winners_le_one (sid : String) (g : Global) (h : Inv sid g) :
    winners g ≤ 1 := by
  unfold winners
  by_cases h1 : g.phase false = TPhase.done true
  · by_cases h2 : g.phase true = TPhase.done true
    · exact absurd ⟨h1, h2⟩ h.oneWinner
    · simp [h1, h2]
  · by_cases h2 : g.phase true = TPhase.done true <;> simp [h1, h2]

theorem fieldCount_cons_eq (k : String) (v : Json) (rest : List (String × Json)) :
    fieldCount ((k, v) :: rest) k = 1 + fieldCount rest k := by
  simp [fieldCount]

theorem fieldCount_cons_ne (k k1 : String) (v : Json) (rest : List (String × Json))
    (h : ¬ k = k1) : fieldCount ((k, v) :: rest) k1 = fieldCount rest k1 := by
  simp [fieldCount, h]

theorem hasStrField_cons_ne (k k1 : String) (v : Json) (rest : List (String × Json))
    (h : ¬ k = k1) : hasStrField ((k, v) :: rest) k1 = hasStrField rest k1 := by
  simp [hasStrField, h]

theorem hasStrField_le_count (L : List (String × Json)) (k : String)
    (h : hasStrField L k = true) : 1 ≤ fieldCount L k := by
  induction L with
  | nil => cases h
  | cons kv rest ih =>
    simp only [hasStrField, Bool.or_eq_true, Bool.and_eq_true, decide_eq_true_eq] at h
    rcases h with ⟨h1, _⟩ | h1
    · simp [fieldCount, h1]
    · have h2 := ih h1
      by_cases hkv : kv.1 = k
      · simp [fieldCount, hkv]
      · simp [fieldCount, hkv]
        omega

theorem decodeFields_jsonrpc_nonstr (v : Json) (hv : isStrJson v = false)
    (rest : List (String × Json)) (idF : Option (Option Json)) (mF : Option String)
    (pF : Option (Option Json)) :
    decodeFields (("jsonrpc", v) :: rest) idF none mF pF =
      .error "invalid type for field jsonrpc" := by
  cases v with
  | str s => simp [isStrJson] at hv
  | null => rfl
  | bool b => rfl
  | num n => rfl
  | arr xs => rfl
  | obj fs => rfl

theorem decodeFields_method_nonstr (v : Json) (hv : isStrJson v = false)
    (rest : List (String × Json)) (idF : Option (Option Json)) (jrF : Option String)
    (pF : Option (Option Json)) :
    decodeFields (("method", v) :: rest) idF jrF none pF =
      .error "invalid type for field method" := by
  cases v with
  | str s => simp [isStrJson] at hv
  | null => rfl
  | bool b => rfl
  | num n => rfl
  | arr xs => rfl
  | obj fs => rfl

theorem decodeFields_jsonrpc_nonstr_iff (v : Json) (hv : isStrJson v = false)
    (rest : List (String × Json)) (idF : Option (Option Json)) (mF : Option String)
    (pF : Option (Option Json)) :
    decodeOk (decodeFields (("jsonrpc", v) :: rest) idF none mF pF) = true ↔
      (fieldCount (("jsonrpc", v) :: rest) "id" ≤ capF idF ∧
       fieldCount (("jsonrpc", v) :: rest) "jsonrpc" ≤ capF (none : Option String) ∧
       fieldCount (("jsonrpc", v) :: rest) "method" ≤ capF mF ∧
       fieldCount (("jsonrpc", v) :: rest) "params" ≤ capF pF ∧
       (filledF (none : Option String) = true ∨
         hasStrField (("jsonrpc", v) :: rest) "jsonrpc" = true) ∧
       (filledF mF = true ∨ hasStrField (("jsonrpc", v) :: rest) "method" = true)) := by
  rw [decodeFields_jsonrpc_nonstr v hv]
  simp only [decodeOk]
  constructor
  · intro h
    cases h
  · rintro ⟨-, h2, -, -, h5, -⟩
    rcases h5 with h5 | h5
    · simp [filledF] at h5
    · rw [show hasStrField (("jsonrpc", v) :: rest) "jsonrpc" = hasStrField rest "jsonrpc"
            from by simp [hasStrField, hv]] at h5
      have h6 := hasStrField_le_count rest "jsonrpc" h5
      rw [fieldCount_cons_eq] at h2
      simp only [capF] at h2
      exact absurd h2 (by omega)

theorem decodeFields_method_nonstr_iff (v : Json) (hv : isStrJson v = false)
    (rest : List (String × Json)) (idF : Option (Option Json)) (jrF : Option String)
    (pF : Option (Option Json)) :
    decodeOk (decodeFields (("method", v) :: rest) idF jrF none pF) = true ↔
      (fieldCount (("method", v) :: rest) "id" ≤ capF idF ∧
       fieldCount (("method", v) :: rest) "jsonrpc" ≤ capF jrF ∧
       fieldCount (("method", v) :: rest) "method" ≤ capF (none : Option String) ∧
       fieldCount (("method", v) :: rest) "params" ≤ capF pF ∧
       (filledF jrF = true ∨ hasStrField (("method", v) :: rest) "jsonrpc" = true) ∧
       (filledF (none : Option String) = true ∨
         hasStrField (("method", v) :: rest) "method" = true)) := by
  rw [decodeFields_method_nonstr v hv]
  simp only [decodeOk]
  constructor
  · intro h
    cases h
  · rintro ⟨-, -, h3, -, -, h6⟩
    rcases h6 with h6 | h6
    · simp [filledF] at h6
    · rw [show hasStrField (("method", v) :: rest) "method" = hasStrField rest "method"
            from by simp [hasStrField, hv]] at h6
      have h7 := hasStrField_le_count rest "method" h6
      rw [fieldCount_cons_eq] at h3
      simp only [capF] at h3
      exact absurd h3 (by omega)

/-- Complete characterization of the serde field loop: from any slot state,
decoding succeeds exactly when each known field occurs at most as often as
its slot still allows, and the jsonrpc and method slots end up filled with
strings. -/
theorem decodeFields_ok_iff (L : List (String × Json)) (idF : Option (Option Json))
    (jrF mF : Option String) (pF : Option (Option Json)) :
    decodeOk (decodeFields L idF jrF mF pF) = true ↔
      (fieldCount L "id" ≤ capF idF ∧
       fieldCount L "jsonrpc" ≤ capF jrF ∧
       fieldCount L "method" ≤ capF mF ∧
       fieldCount L "params" ≤ capF pF ∧
       (filledF jrF = true ∨ hasStrField L "jsonrpc" = true) ∧
       (filledF mF = true ∨ hasStrField L "method" = true)) := by
  induction L generalizing idF jrF mF pF with
  | nil =>
    cases jrF <;> cases mF <;>
      simp [decodeFields, decodeOk, fieldCount, hasStrField, capF, filledF]
  | cons kv rest ih =>
    obtain ⟨k, v⟩ := kv
    by_cases hk1 : k = "id"
    · subst hk1
      cases idF with
      | some x =>
        rw [show decodeFields (("id", v) :: rest) (some x) jrF mF pF =
              Except.error "duplicate field id" from rfl]
        simp only [decodeOk]
        constructor
        · intro h
          cases h
        · rintro ⟨h1, -, -, -, -, -⟩
          rw [fieldCount_cons_eq] at h1
          simp only [capF] at h1
          exact absurd h1 (by omega)
      | none =>
        rw [show decodeFields (("id", v) :: rest) none jrF mF pF =
              decodeFields rest (some (decodeOptValue v)) jrF mF pF from rfl]
        rw [ih (some (decodeOptValue v)) jrF mF pF]
        rw [fieldCount_cons_eq,
            fieldCount_cons_ne _ _ _ _ (by decide : ¬ ("id" : String) = "jsonrpc"),
            fieldCount_cons_ne _ _ _ _ (by decide : ¬ ("id" : String) = "method"),
            fieldCount_cons_ne _ _ _ _ (by decide : ¬ ("id" : String) = "params"),
            hasStrField_cons_ne _ _ _ _ (by decide : ¬ ("id" : String) = "jsonrpc"),
            hasStrField_cons_ne _ _ _ _ (by decide : ¬ ("id" : String) = "method")]
        simp only [capF]
        constructor
        · rintro ⟨h1, h⟩
          exact ⟨by omega, h⟩
        · rintro ⟨h1, h⟩
          exact ⟨by omega, h⟩
    · by_cases hk2 : k = "jsonrpc"
      · subst hk2
        cases jrF with
        | some x =>
          rw [show decodeFields (("jsonrpc", v) :: rest) idF (some x) mF pF =
                Except.error "duplicate field jsonrpc" from rfl]
          simp only [decodeOk]
          constructor
          · intro h
            cases h
          · rintro ⟨-, h2, -, -, -, -⟩
            rw [fieldCount_cons_eq] at h2
            simp only [capF] at h2
            exact absurd h2 (by omega)
        | none =>
          cases v with
          | str s =>
            rw [show decodeFields (("jsonrpc", Json.str s) :: rest) idF none mF pF =
                  decodeFields rest idF (some s) mF pF from rfl]
            rw [ih idF (some s) mF pF]
            rw [fieldCount_cons_ne _ _ _ _ (by decide : ¬ ("jsonrpc" : String) = "id"),
                fieldCount_cons_eq,
                fieldCount_cons_ne _ _ _ _ (by decide : ¬ ("jsonrpc" : String) = "method"),
                fieldCount_cons_ne _ _ _ _ (by decide : ¬ ("jsonrpc" : String) = "params"),
                hasStrField_cons_ne _ _ _ _ (by decide : ¬ ("jsonrpc" : String) = "method"),
                show hasStrField (("jsonrpc", Json.str s) :: rest) "jsonrpc" = true
                  from by simp [hasStrField, isStrJson]]
            simp only [capF, filledF]
            constructor
            · rintro ⟨h1, h2, h3, h4, h5, h6⟩
              exact ⟨h1, by omega, h3, h4, Or.inr trivial, h6⟩
            · rintro ⟨h1, h2, h3, h4, h5, h6⟩
              exact ⟨h1, by omega, h3, h4, Or.inl trivial, h6⟩
          | null => exact decodeFields_jsonrpc_nonstr_iff Json.null rfl rest idF mF pF
          | bool b => exact decodeFields_jsonrpc_nonstr_iff (Json.bool b) rfl rest idF mF pF
          | num n => exact decodeFields_jsonrpc_nonstr_iff (Json.num n) rfl rest idF mF pF
          | arr xs => exact decodeFields_jsonrpc_nonstr_iff (Json.arr xs) rfl rest idF mF pF
          | obj fs => exact decodeFields_jsonrpc_nonstr_iff (Json.obj fs) rfl rest idF mF pF
      · by_cases hk3 : k = "method"
        · subst hk3
          cases mF with
          | some x =>
            rw [show decodeFields (("method", v) :: rest) idF jrF (some x) pF =
                  Except.error "duplicate field method" from rfl]
            simp only [decodeOk]
            constructor
            · intro h
              cases h
            · rintro ⟨-, -, h3, -, -, -⟩
              rw [fieldCount_cons_eq] at h3
              simp only [capF] at h3
              exact absurd h3 (by omega)
          | none =>
            cases v with
            | str s =>
              rw [show decodeFields (("method", Json.str s) :: rest) idF jrF none pF =
                    decodeFields rest idF jrF (some s) pF from rfl]
              rw [ih idF jrF (some s) pF]
              rw [fieldCount_cons_ne _ _ _ _ (by decide : ¬ ("method" : String) = "id"),
                  fieldCount_cons_ne _ _ _ _ (by decide : ¬ ("method" : String) = "jsonrpc"),
                  fieldCount_cons_eq,
                  fieldCount_cons_ne _ _ _ _ (by decide : ¬ ("method" : String) = "params"),
                  hasStrField_cons_ne _ _ _ _ (by decide : ¬ ("method" : String) = "jsonrpc"),
                  show hasStrField (("method", Json.str s) :: rest) "method" = true
                    from by simp [hasStrField, isStrJson]]
              simp only [capF, filledF]
              constructor
              · rintro ⟨h1, h2, h3, h4, h5, h6⟩
                exact ⟨h1, h2, by omega, h4, h5, Or.inr trivial⟩
              · rintro ⟨h1, h2, h3, h4, h5, h6⟩
                exact ⟨h1, h2, by omega, h4, h5, Or.inl trivial⟩
            | null => exact decodeFields_method_nonstr_iff Json.null rfl rest idF jrF pF
            | bool b => exact decodeFields_method_nonstr_iff (Json.bool b) rfl rest idF jrF pF
            | num n => exact decodeFields_method_nonstr_iff (Json.num n) rfl rest idF jrF pF
            | arr xs => exact decodeFields_method_nonstr_iff (Json.arr xs) rfl rest idF jrF pF
            | obj fs => exact decodeFields_method_nonstr_iff (Json.obj fs) rfl rest idF jrF pF
        · by_cases hk4 : k = "params"
          · subst hk4
            cases pF with
            | some x =>
              rw [show decodeFields (("params", v) :: rest) idF jrF mF (some x) =
                    Except.error "duplicate field params" from rfl]
              simp only [decodeOk]
              constructor
              · intro h
                cases h
              · rintro ⟨-, -, -, h4, -, -⟩
                rw [fieldCount_cons_eq] at h4
                simp only [capF] at h4
                exact absurd h4 (by omega)
            | none =>
              rw [show decodeFields (("params", v) :: rest) idF jrF mF none =
                    decodeFields rest idF jrF mF (some (decodeOptValue v)) from rfl]
              rw [ih idF jrF mF (some (decodeOptValue v))]
              rw [fieldCount_cons_ne _ _ _ _ (by decide : ¬ ("params" : String) = "id"),
                  fieldCount_cons_ne _ _ _ _ (by decide : ¬ ("params" : String) = "jsonrpc"),
                  fieldCount_cons_ne _ _ _ _ (by decide : ¬ ("params" : String) = "method"),
                  fieldCount_cons_eq,
                  hasStrField_cons_ne _ _ _ _ (by decide : ¬ ("params" : String) = "jsonrpc"),
                  hasStrField_cons_ne _ _ _ _ (by decide : ¬ ("params" : String) = "method")]
              simp only [capF]
              constructor
              · rintro ⟨h1, h2, h3, h4, h⟩
                exact ⟨h1, h2, h3, by omega, h⟩
              · rintro ⟨h1, h2, h3, h4, h⟩
                exact ⟨h1, h2, h3, by omega, h⟩
          · rw [fieldCount_cons_ne _ _ _ _ hk1, fieldCount_cons_ne _ _ _ _ hk2,
                fieldCount_cons_ne _ _ _ _ hk3, fieldCount_cons_ne _ _ _ _ hk4,
                hasStrField_cons_ne _ _ _ _ hk2, hasStrField_cons_ne _ _ _ _ hk3]
            rw [show decodeFields ((k, v) :: rest) idF jrF mF pF =
                  decodeFields rest idF jrF mF pF
                  from by simp [decodeFields, hk1, hk2, hk3, hk4]]
            exact ih idF jrF mF pF

theorem stdout_reader_loop_none (items : List ReadItem) :
    stdout_reader_loop none items = (okLines items).map ReaderEvent.chanSend := by
  induction items with
  | nil => rfl
  | cons it rest ih => cases it <;> simp [stdout_reader_loop, okLines, ih]

theorem stdout_reader_loop_some (n : Nat) (items : List ReadItem) :
    stdout_reader_loop (some n) items =
      ((okLines items).take n).map ReaderEvent.chanSend := by
  induction items generalizing n with
  | nil => simp [stdout_reader_loop, okLines]
  | cons it rest ih =>
    cases it with
    | line s =>
      cases n with
      | zero => rfl
      | succ m => simp [stdout_reader_loop, okLines, ih]
    | readErr e => simp [stdout_reader_loop, okLines, ih]

theorem chanDeliveries_map (l : List String) :
    chanDeliveries (l.map ReaderEvent.chanSend) = l := by
  induction l with
  | nil => rfl
  | cons s rest ih => simp [chanDeliveries, ih]

theorem broadcastCount_map (l : List String) (kind line : String) :
    broadcastCount (l.map ReaderEvent.chanSend) kind line = 0 := by
  induction l with
  | nil => rfl
  | cons s rest ih => simp [broadcastCount, ih]

theorem send_mcp_command_singleCS (env : WriteEnv) (servers : Registry)
    (server_id : String) (c : Command) :
    singleCS (send_mcp_command env servers server_id c).2.2 = true := by
  cases hl : lookupEntry servers server_id with
  | none =>
    simp only [send_mcp_command, hl]
    rfl
  | some srv =>
    cases hf : fromStr c with
    | error e =>
      simp only [send_mcp_command, send_command, hl, hf]
      rfl
    | ok m =>
      cases hw : env.writeErr with
      | some e =>
        simp only [send_mcp_command, send_command, hl, hf, hw]
        rfl
      | none =>
        cases hfl : env.flushErr with
        | some e =>
          simp only [send_mcp_command, send_command, hl, hf, hw, hfl]
          rfl
        | none =>
          cases hid : m.id with
          | none =>
            simp only [send_mcp_command, send_command, hl, hf, hw, hfl, hid]
            rfl
          | some v =>
            cases hq : srv.stdoutQueue with
            | nil =>
              simp only [send_mcp_command, send_command, hl, hf, hw, hfl, hid, hq]
              rfl
            | cons line rest =>
              simp only [send_mcp_command, send_command, hl, hf, hw, hfl, hid, hq]
              rfl

theorem start_mcp_server_singleCS (env : SpawnEnv) (servers : Registry)
    (server_id command : String) (env_vars : List EnvVar) :
    singleCS (start_mcp_server env servers server_id command env_vars).2.2 = true := by
  cases hc : containsKey servers server_id with
  | true =>
    simp only [start_mcp_server, hc]
    rfl
  | false =>
    cases hr : env.result with
    | error e =>
      simp only [start_mcp_server, hc, hr]
      rfl
    | ok streams =>
      cases hi : streams.stdinAvail with
      | false =>
        simp only [start_mcp_server, hc, hr, hi]
        rfl
      | true =>
        cases ho : streams.stdoutAvail with
        | false =>
          cases he : streams.stderrAvail with
          | false =>
            simp only [start_mcp_server, hc, hr, hi, ho, he]
            rfl
          | true =>
            simp only [start_mcp_server, hc, hr, hi, ho, he]
            rfl
        | true =>
          cases he : streams.stderrAvail with
          | false =>
            simp only [start_mcp_server, hc, hr, hi, ho, he]
            rfl
          | true =>
            simp only [start_mcp_server, hc, hr, hi, ho, he]
            rfl

theorem send_mcp_command_heldAcrossWait (env : WriteEnv) (servers : Registry)
    (server_id : String) (c : Command) :
    heldAcrossWait (send_mcp_command env servers server_id c).2.2 =
      (send_mcp_command env servers server_id c).2.2.any isRecvAct := by
  cases hl : lookupEntry servers server_id with
  | none =>
    simp only [send_mcp_command, hl]
    rfl
  | some srv =>
    cases hf : fromStr c with
    | error e =>
      simp only [send_mcp_command, send_command, hl, hf]
      rfl
    | ok m =>
      cases hw : env.writeErr with
      | some e =>
        simp only [send_mcp_command, send_command, hl, hf, hw]
        rfl
      | none =>
        cases hfl : env.flushErr with
        | some e =>
          simp only [send_mcp_command, send_command, hl, hf, hw, hfl]
          rfl
        | none =>
          cases hid : m.id with
          | none =>
            simp only [send_mcp_command, send_command, hl, hf, hw, hfl, hid]
            rfl
          | some v =>
            cases hq : srv.stdoutQueue with
            | nil =>
              simp only [send_mcp_command, send_command, hl, hf, hw, hfl, hid, hq]
              rfl
            | cons line rest =>
              simp only [send_mcp_command, send_command, hl, hf, hw, hfl, hid, hq]
              rfl

/-- C1 counterexample: the stdout reader of mcp.rs delivers a line it has
read ("hello") to the hand-off channel, yet publishes zero copies of it on
any broadcast/event-stream sink, so the claimed second, independent delivery
tagged (session id, "stdout") does not happen: the line appears zero times,
not exactly once, on the event stream. -/
theorem c1_no_broadcast_counterexample :
    chanDeliveries (stdout_reader_loop none [ReadItem.line "hello"]) = ["hello"] ∧
    broadcastCount (stdout_reader_loop none [ReadItem.line "hello"]) "stdout" "hello" = 0 := by
  exact ⟨rfl, rfl⟩

/-- C1 amended: every line the child writes to stdout is delivered to exactly
one sink, the Session's hand-off channel — each line once, in order, for as
long as the receiver accepts sends — and to no broadcaster: the reader
publishes nothing on any event-stream sink, whatever the stream contents and
receiver lifetime. -/
theorem c1_single_sink (items : List ReadItem) :
    stdout_reader_loop none items = (okLines items).map ReaderEvent.chanSend ∧
    (∀ n : Nat, stdout_reader_loop (some n) items =
      ((okLines items).take n).map ReaderEvent.chanSend) ∧
    (∀ budget : Option Nat, ∀ kind line : String,
      broadcastCount (stdout_reader_loop budget items) kind line = 0) := by
  refine ⟨stdout_reader_loop_none items, fun n => stdout_reader_loop_some n items, ?_⟩
  intro budget kind line
  cases budget with
  | none => rw [stdout_reader_loop_none, broadcastCount_map]
  | some n => rw [stdout_reader_loop_some, broadcastCount_map]

/-- C2 counterexample: a concrete send of a request to a registered session
whose child stays silent performs its blocking timed receive while holding
the registry lock, refuting the claim that the lock is never held across the
blocking write-then-wait. -/
theorem c2_lock_across_wait_counterexample :
    heldAcrossWait (send_mcp_command okWrites sampleRegistry "s1" reqCommand).2.2 = true := by
  rfl

/-- C2 amended: the registry lock is held as one critical section spanning
each entire command — send_mcp_command and start_mcp_server acquire it on
entry and release it only on return — and every blocking timed receive a
send performs happens inside that critical section, so while one caller's
send waits on one session, starts and sends on all other sessions are
blocked until it finishes. -/
theorem c2_lock_spans_command :
    (∀ env servers server_id c,
      singleCS (send_mcp_command env servers server_id c).2.2 = true) ∧
    (∀ env servers server_id command env_vars,
      singleCS (start_mcp_server env servers server_id command env_vars).2.2 = true) ∧
    (∀ env servers server_id c,
      heldAcrossWait (send_mcp_command env servers server_id c).2.2 =
        (send_mcp_command env servers server_id c).2.2.any isRecvAct) := by
  exact ⟨send_mcp_command_singleCS, start_mcp_server_singleCS,
         send_mcp_command_heldAcrossWait⟩

/-- C3: a second start with an identifier already present fails with the
DuplicateSession error, leaves the registry (and so the existing session)
unchanged and spawns nothing; the whole body of start_mcp_server is one
critical section of the registry lock; and in the two-thread interleaved
execution of start with one identifier, no schedule lets both calls return
Ok. -/
theorem c3_duplicate_start :
    (∀ env servers server_id command env_vars,
      containsKey servers server_id = true →
      start_mcp_server env servers server_id command env_vars =
        (.error "Server with this ID already exists", servers,
         [Action.lockAcquire, Action.mapContains server_id, Action.lockRelease])) ∧
    (∀ env servers server_id command env_vars,
      singleCS (start_mcp_server env servers server_id command env_vars).2.2 = true) ∧
    (∀ reg0 server_id spawnOk sched,
      winners (runSched server_id spawnOk sched (initGlobal reg0)) ≤ 1) := by
  refine ⟨?_, start_mcp_server_singleCS, ?_⟩
  · intro env servers server_id command env_vars h
    simp [start_mcp_server, h]
  · intro reg0 server_id spawnOk sched
    exact winners_le_one server_id _
      (runSched_inv server_id spawnOk sched (initGlobal reg0) (inv_init server_id reg0))

/-- Witness for C3 at concrete inputs: a duplicate start against a one-entry
registry fails and changes nothing, and a concrete alternating two-thread
schedule produces at most one winner. -/
theorem c3_duplicate_start_witness :
    start_mcp_server spawnOkEnv sampleRegistry "s1" "echo hi" [] =
      (.error "Server with this ID already exists", sampleRegistry,
       [Action.lockAcquire, Action.mapContains "s1", Action.lockRelease]) ∧
    winners (runSched "s1" (fun _ => true)
      [false, true, false, true, false, true, false, true] (initGlobal [])) ≤ 1 := by
  exact ⟨c3_duplicate_start.1 spawnOkEnv sampleRegistry "s1" "echo hi" [] rfl,
         c3_duplicate_start.2.2 [] "s1" (fun _ => true)
           [false, true, false, true, false, true, false, true]⟩

/-- C4: for every input text that fails to parse as a structured protocol
message, send_command fails with the MalformedMessage error and performs no
action at all: nothing is written to the process stdin, no channel receive
happens, and the session state is unchanged. -/
theorem c4_malformed_never_written (env : WriteEnv) (srv : McpServer) (c : Command)
    (e : String) (h : fromStr c = .error e) :
    send_command env srv c =
      (.error ("Failed to parse JSON-RPC message: " ++ e), srv, ([] : List Action)) := by
  simp [send_command, h]

/-- Witness for C4 on a concrete non-JSON text. -/
theorem c4_malformed_never_written_witness :
    send_command okWrites emptyServer badCommand =
      (.error ("Failed to parse JSON-RPC message: " ++ "expected value at line 1 column 1"),
       emptyServer, ([] : List Action)) := by
  exact c4_malformed_never_written okWrites emptyServer badCommand
    "expected value at line 1 column 1" rfl

/-- C5: a message whose correlation identifier is absent (or JSON null,
which decodes to an absent id) is a notification: after the write and flush
succeed, send_command returns Ok "" at once — its trace contains no timed
receive, and the hand-off queue is untouched, whatever it holds. -/
theorem c5_notification_returns_immediately (env : WriteEnv) (srv : McpServer)
    (c : Command) (m : JsonRpcMessage) (h1 : fromStr c = .ok m) (h2 : m.id = none)
    (h3 : env.writeErr = none) (h4 : env.flushErr = none) :
    send_command env srv c =
      (.ok "", { srv with stdinWritten := srv.stdinWritten ++ [c.raw ++ "\n"] },
       [Action.writeStdin (c.raw ++ "\n"), Action.flushStdin]) := by
  simp [send_command, h1, h2, h3, h4]

/-- Witness for C5: a concrete notification against a session whose child
never writes anything back (empty queue) returns Ok "" with no receive. -/
theorem c5_notification_returns_immediately_witness :
    send_command okWrites emptyServer notifCommand =
      (.ok "", { stdinWritten := [notifCommand.raw ++ "\n"], stdoutQueue := [] },
       [Action.writeStdin (notifCommand.raw ++ "\n"), Action.flushStdin]) := by
  exact c5_notification_returns_immediately okWrites emptyServer notifCommand
    ⟨none, "2.0", "initialized", none⟩ rfl rfl rfl rfl

/-- C6: a request (id present) sent to a registered session blocks on the
session's hand-off channel with the fixed 5-second timeout after a
successful write and flush: if a line is available within the window it is
returned verbatim — whatever the line says, with no matching against the
request's id — and otherwise the send fails with the ReplyTimeout error. -/
theorem c6_request_awaits_next_line (env : WriteEnv) (servers : Registry)
    (server_id : String) (c : Command) (m : JsonRpcMessage) (v : Json)
    (srv : McpServer) (h0 : lookupEntry servers server_id = some srv)
    (h1 : fromStr c = .ok m) (h2 : m.id = some v)
    (h3 : env.writeErr = none) (h4 : env.flushErr = none) :
    (send_mcp_command env servers server_id c).1 =
      (match srv.stdoutQueue with
       | [] => Except.error "Timeout waiting for command output"
       | line :: _ => Except.ok line) ∧
    Action.recvTimeout 5 ∈ (send_mcp_command env servers server_id c).2.2 := by
  cases hq : srv.stdoutQueue with
  | nil =>
    constructor <;> simp [send_mcp_command, send_command, h0, h1, h2, h3, h4, hq]
  | cons line rest =>
    constructor <;> simp [send_mcp_command, send_command, h0, h1, h2, h3, h4, hq]

/-- Witness for C6: a concrete request against a session with one queued
line gets that line verbatim (it is not the echo of the request, and no id
matching restricts it), with the 5-second timed receive in the trace. -/
theorem c6_request_awaits_next_line_witness :
    (send_mcp_command okWrites replyRegistry "s1" reqCommand).1 = Except.ok "pong" ∧
    Action.recvTimeout 5 ∈ (send_mcp_command okWrites replyRegistry "s1" reqCommand).2.2 := by
  exact c6_request_awaits_next_line okWrites replyRegistry "s1" reqCommand
    ⟨some (Json.num 1), "2.0", "ping", none⟩ (Json.num 1) replyServer rfl rfl rfl rfl rfl

/-- C7: when the process cannot be created, or the child stdin cannot be
captured, start_mcp_server fails with the corresponding SpawnFailure error
and the registry is unchanged — for a fresh identifier, no entry for it
remains. -/
theorem c7_spawn_failure_no_partial_session (env : SpawnEnv) (servers : Registry)
    (server_id command : String) (env_vars : List EnvVar)
    (h0 : containsKey servers server_id = false) :
    (∀ e, env.result = .error e →
      start_mcp_server env servers server_id command env_vars =
        (.error ("Failed to start process: " ++ e), servers,
         [Action.lockAcquire, Action.mapContains server_id,
          Action.spawn command (env_vars.map (fun v => (v.key, v.value))),
          Action.lockRelease]) ∧
      containsKey (start_mcp_server env servers server_id command env_vars).2.1
        server_id = false) ∧
    (∀ streams, env.result = .ok streams → streams.stdinAvail = false →
      (start_mcp_server env servers server_id command env_vars).1 =
        .error "Failed to capture stdin" ∧
      (start_mcp_server env servers server_id command env_vars).2.1 = servers ∧
      containsKey (start_mcp_server env servers server_id command env_vars).2.1
        server_id = false) := by
  constructor
  · intro e he
    constructor
    · simp [start_mcp_server, h0, he]
    · simp [start_mcp_server, h0, he]
  · intro streams hs hin
    refine ⟨?_, ?_, ?_⟩
    · simp [start_mcp_server, h0, hs, hin]
    · simp [start_mcp_server, h0, hs, hin]
    · simp [start_mcp_server, h0, hs, hin]

/-- Witness for C7: starting a non-existent executable on an empty registry
fails with SpawnFailure and the registry stays empty; likewise when the
child stdin cannot be captured. -/
theorem c7_spawn_failure_no_partial_session_witness :
    (start_mcp_server spawnFailEnv [] "s1" "definitely-not-a-real-binary" []).1 =
      .error ("Failed to start process: " ++ "No such file or directory (os error 2)") ∧
    containsKey (start_mcp_server spawnFailEnv [] "s1" "definitely-not-a-real-binary" []).2.1
      "s1" = false ∧
    (start_mcp_server noStdinEnv [] "s1" "echo hi" []).1 = .error "Failed to capture stdin" ∧
    (start_mcp_server noStdinEnv [] "s1" "echo hi" []).2.1 = [] := by
  have h1 := (c7_spawn_failure_no_partial_session spawnFailEnv [] "s1"
    "definitely-not-a-real-binary" [] rfl).1 "No such file or directory (os error 2)" rfl
  have h2 := (c7_spawn_failure_no_partial_session noStdinEnv [] "s1" "echo hi" [] rfl).2
    { stdinAvail := false, stdoutAvail := true, stderrAvail := true } rfl rfl
  refine ⟨?_, h1.2, h2.1, h2.2.1⟩
  rw [h1.1]

/-- C8 counterexample: a syntactically valid JSON object lacking a method
name IS rejected by send_command's parse step, while the same object with a
method added is accepted — acceptance depends on fields other than the
correlation identifier, refuting the claim. -/
theorem c8_rejects_missing_method_counterexample :
    decodeOk (decodeJsonRpcMessage noMethodJson) = false ∧
    (send_command okWrites emptyServer noMethodCommand).1 =
      .error ("Failed to parse JSON-RPC message: " ++ "missing field method") ∧
    decodeOk (decodeJsonRpcMessage reqJson) = true := by
  exact ⟨rfl, rfl, rfl⟩

/-- C8 amended: the parse step enforces exactly the JsonRpcMessage shape on
a JSON object — each of the fields id, jsonrpc, method, params at most once,
and jsonrpc and method present with string values; beyond that, acceptance
is independent of every field's contents (id and params may hold any value,
unknown fields are ignored, and no method semantics or version value is
checked). An object lacking method or jsonrpc is rejected. -/
theorem c8_accepts_iff_required_fields (fields : List (String × Json)) :
    decodeOk (decodeJsonRpcMessage (Json.obj fields)) = acceptsPerSpec fields := by
  have h := decodeFields_ok_iff fields none none none none
  have h2 : acceptsPerSpec fields = true ↔
      (fieldCount fields "id" ≤ 1 ∧ fieldCount fields "jsonrpc" ≤ 1 ∧
       fieldCount fields "method" ≤ 1 ∧ fieldCount fields "params" ≤ 1 ∧
       hasStrField fields "jsonrpc" = true ∧ hasStrField fields "method" = true) := by
    simp [acceptsPerSpec, Bool.and_eq_true, decide_eq_true_eq, and_assoc]
  have h3 : decodeOk (decodeJsonRpcMessage (Json.obj fields)) = true ↔
      acceptsPerSpec fields = true := by
    rw [show decodeJsonRpcMessage (Json.obj fields) =
          decodeFields fields none none none none from rfl]
    rw [h, h2]
    simp only [capF, filledF]
    constructor
    · rintro ⟨ha, hb, hc, hd, he, hf⟩
      rcases he with he | he
      · cases he
      · rcases hf with hf | hf
        · cases hf
        · exact ⟨ha, hb, hc, hd, he, hf⟩
    · rintro ⟨ha, hb, hc, hd, he, hf⟩
      exact ⟨ha, hb, hc, hd, Or.inr he, Or.inr hf⟩
  cases hA : acceptsPerSpec fields
  · cases hL : decodeOk (decodeJsonRpcMessage (Json.obj fields))
    · rfl
    · exfalso
      have hp := h3.mp hL
      rw [hA] at hp
      cases hp
  · exact h3.mpr hA

/-- C9 counterexample: on a stream that yields a read error and then a good
line, the reader of mcp.rs delivers the line that follows the error instead
of terminating at the error, refuting the claim that an unrecoverable read
error terminates the reader at that point. -/
theorem c9_continues_after_error_counterexample :
    ¬ (chanDeliveries (stdout_reader_loop none
          [ReadItem.readErr "stream did not contain valid UTF-8", ReadItem.line "late"]) =
       readerStopsAtError
          [ReadItem.readErr "stream did not contain valid UTF-8", ReadItem.line "late"]) := by
  decide

/-- C9 amended: a reader delivers every successfully read line to its sink
until the stream ends, silently skipping individual read errors and
continuing; no error is ever propagated (a stream of only errors produces no
events at all), and the stderr reader behaves the same into its log sink. -/
theorem c9_reader_skips_errors_silently (items : List ReadItem) :
    chanDeliveries (stdout_reader_loop none items) = okLines items ∧
    (∀ errs : List String, stdout_reader_loop none (errs.map ReadItem.readErr) = []) ∧
    stderr_reader_loop items = okLines items := by
  refine ⟨?_, ?_, ?_⟩
  · rw [stdout_reader_loop_none, chanDeliveries_map]
  · intro errs
    induction errs with
    | nil => rfl
    | cons e rest ih => simpa [stdout_reader_loop] using ih
  · induction items with
    | nil => rfl
    | cons it rest ih => cases it <;> simp [stderr_reader_loop, okLines, ih]

/-- C10: when the message parses but the stdin write fails, send_command
returns the write error having performed only the failed write — the session
state, including every stdout line queued on the hand-off channel, is
untouched; when the write succeeds and the flush fails, it returns the flush
error, the queue is untouched and no timed receive happens, so the queued
lines remain for the next send. -/
theorem c10_write_failure_leaves_queue (env : WriteEnv) (srv : McpServer)
    (c : Command) (m : JsonRpcMessage) (h1 : fromStr c = .ok m) :
    (∀ e, env.writeErr = some e →
      send_command env srv c =
        (.error ("Failed to send command: " ++ e), srv,
         [Action.writeStdin (c.raw ++ "\n")])) ∧
    (∀ e, env.writeErr = none → env.flushErr = some e →
      (send_command env srv c).1 = .error ("Failed to flush stdin: " ++ e) ∧
      (send_command env srv c).2.1.stdoutQueue = srv.stdoutQueue ∧
      (∀ a ∈ (send_command env srv c).2.2, isRecvAct a = false)) := by
  constructor
  · intro e he
    simp [send_command, h1, he]
  · intro e he hf
    refine ⟨?_, ?_, ?_⟩
    · simp [send_command, h1, he, hf]
    · simp [send_command, h1, he, hf]
    · intro a ha
      simp [send_command, h1, he, hf] at ha
      rcases ha with rfl | rfl <;> rfl

/-- Witness for C10: concrete write and flush failures on a session with a
queued line leave the queue intact and perform no receive. -/
theorem c10_write_failure_leaves_queue_witness :
    send_command failWrite replyServer reqCommand =
      (.error ("Failed to send command: " ++ "Broken pipe (os error 32)"), replyServer,
       [Action.writeStdin (reqCommand.raw ++ "\n")]) ∧
    (send_command failFlush replyServer reqCommand).2.1.stdoutQueue =
      replyServer.stdoutQueue := by
  have h1 := c10_write_failure_leaves_queue failWrite replyServer reqCommand
    ⟨some (Json.num 1), "2.0", "ping", none⟩ rfl
  have h2 := c10_write_failure_leaves_queue failFlush replyServer reqCommand
    ⟨some (Json.num 1), "2.0", "ping", none⟩ rfl
  exact ⟨h1.1 "Broken pipe (os error 32)" rfl,
         (h2.2 "Broken pipe (os error 32)" rfl rfl).2.1⟩

end Agentia
